import Mathlib

/-!
Shallow embedding of the "hello world a million times" conformance harness.

Source files:
* `src/unnamed/part_000`  — the vitest validation pipeline (structural check,
  size check, keyword ban, self-recursion heuristic, execution, output count).
* `src/scripts/run-interactive.js` — the interactive dispatcher.

Strings are modelled as `String` / `List Char`; the JavaScript regular
expressions used by the source are transcribed as deterministic character-list
scanners (each regex involved is backtracking-free because every bounded
repetition in it is over a character class disjoint from what follows).
-/

/-- Error taxonomy of the spec (§7): structural, static-check, execution and
verification failures.  The source throws `Error` values with messages; the
spec names these categories. -/
inductive Err where
  | StructuralError
  | SizeExceeded
  | BannedConstruct
  | SelfRecursion
  | ExecutionFailed (stderr : String)
  | CountMismatch
deriving DecidableEq

/-- part_000 line 6: `const EXPECTED_COUNT = 1000000`. -/
def EXPECTED_COUNT : Nat := 1000000

/-- part_000 line 7: `const MAX_FILE_SIZE = 1000`. -/
def MAX_FILE_SIZE : Nat := 1000

/-- part_000 lines 8–14 (and run-interactive.js lines 9–15, identical):
the allow-list of entry file names. -/
def ALLOWED_FILENAMES : List String :=
  ["main.js", "main.cjs", "main.mjs", "main.ts", "main.coffee"]

/-- The literal target string counted by the output verifier
(part_000 line 186: `output.match(/Hello, World!/g)`). -/
def TARGET : String := "Hello, World!"

/-- `dropLit? pre l` returns `some rest` when `l` starts with the literal
character sequence `pre` and `rest` is what follows, else `none`. -/
def dropLit? : List Char → List Char → Option (List Char)
  | [], l => some l
  | _ :: _, [] => none
  | p :: ps, c :: cs => if c = p then dropLit? ps cs else none

/-- Does `l` start with the literal `tgt`? -/
def matchesAt (tgt l : List Char) : Bool := (dropLit? tgt l).isSome

/-- Leftmost non-overlapping occurrence counting, as performed by
`output.match(/lit/g)` for a literal pattern: scan left to right; at each
position not inside a previous match, test the literal; on a match, the next
`tgt.length - 1` positions are inside the match and are skipped (tracked by
the `skip` argument). -/
def countGo (tgt : List Char) : List Char → Nat → Nat
  | [], _ => 0
  | _ :: rest, skip + 1 => countGo tgt rest skip
  | c :: rest, 0 =>
    if matchesAt tgt (c :: rest) then 1 + countGo tgt rest (tgt.length - 1)
    else countGo tgt rest 0

/-- Number of non-overlapping occurrences of the literal `tgt` in `s`
(part_000 lines 186–187: `matches ? matches.length : 0`). -/
def countOcc (s tgt : String) : Nat := countGo tgt.data s.data 0

/-- Output Verifier (part_000 lines 185–189): count the occurrences of the
target literal in the captured stdout and compare with `EXPECTED_COUNT`. -/
def outputCheck (output : String) : Option Err :=
  if countOcc output TARGET = EXPECTED_COUNT then none else some .CountMismatch

/-- Size check (part_000 lines 100–103): the file's byte length must not
exceed `MAX_FILE_SIZE`. -/
def sizeCheck (byteLength : Nat) : Option Err :=
  if byteLength ≤ MAX_FILE_SIZE then none else some .SizeExceeded

/-- `findMainFile` (part_000 lines 37–61, textually identical in
run-interactive.js lines 29–53): given the regular files of an entry
directory, fail unless there is exactly one and its name is allowed. -/
def findMainFile (files : List String) : Except Err String :=
  if files.length = 0 then .error .StructuralError
  else if files.length > 1 then .error .StructuralError
  else
    let fileName := files.headD ""
    if fileName ∈ ALLOWED_FILENAMES then .ok fileName
    else .error .StructuralError

/-- `getRunCommand` of the validation pipeline (part_000 lines 64–72). -/
def getRunCommand (fileName : String) : List String :=
  if fileName = "main.ts" then ["npx", "ts-node", "--esm"]
  else if fileName = "main.coffee" then ["npx", "coffee"]
  else ["node"]

/-- `getRunCommand` of the interactive dispatcher
(run-interactive.js lines 18–26).  Note: no `--esm` flag for `main.ts`. -/
def getRunCommandInteractive (fileName : String) : List String :=
  if fileName = "main.ts" then ["npx", "ts-node"]
  else if fileName = "main.coffee" then ["npx", "coffee"]
  else ["node"]

/-- The `close` handler of the Execution Runner (part_000 lines 176–182):
the exit code is a number or `null` (`none` here, e.g. on a signal); on
`code !== 0` reject with the accumulated stderr, else resolve with the
accumulated stdout. -/
def onClose (code : Option Int) (stdout stderr : String) : Except Err String :=
  if code ≠ some 0 then .error (.ExecutionFailed stderr) else .ok stdout

/-! ### Character classes of the JavaScript regexes -/

/-- ECMAScript `\w`: `[A-Za-z0-9_]`.  (`Char.isAlpha`/`Char.isDigit` are the
ASCII predicates.) -/
def isWordChar (c : Char) : Bool := c.isAlpha || c.isDigit || c = '_'

/-- ECMAScript `\s`: ASCII whitespace, NBSP, BOM, and the Unicode
space-separator code points (NBSP, U+1680, U+2000–U+200A, U+2028, U+2029,
U+202F, U+205F, U+3000, U+FEFF). -/
def isJsSpace (c : Char) : Bool :=
  c = ' ' || c = '\t' || c = '\n' || c = '\r' || c = '\x0b' || c = '\x0c' ||
  c = ' ' || c = ' ' || (' ' ≤ c && c ≤ ' ') ||
  c = ' ' || c = ' ' || c = ' ' || c = ' ' || c = '　' || c = '﻿'

/-- ECMAScript line terminators (the characters `.` does not match):
LF, CR, LS, PS. -/
def isLineTerm (c : Char) : Bool :=
  c = '\n' || c = '\r' || c = ' ' || c = ' '

/-! ### Comment stripping (part_000 lines 106–109)

`fileContent.replace(/\/\*[\s\S]*?\*\//g, "").replace(/\/\/.*/g, "")`:
first every `/* ... */` block (lazy, so ending at the first `*/`) is removed,
then every `//` and the rest of its line.  A `/*` with no later `*/` matches
nothing and is left in place — and then no later `/*` can match either, so
the scan may stop there. -/

/-- Does `*/` occur somewhere in `l`? -/
def containsClose : List Char → Bool
  | [] => false
  | '*' :: '/' :: _ => true
  | _ :: rest => containsClose rest

/-- Block-comment removal; the flag records being inside a `/* ... */`
(dropping up to and including the first `*/`). -/
def stripBlockAux : List Char → Bool → List Char
  | [], _ => []
  | '*' :: '/' :: rest, true => stripBlockAux rest false
  | _ :: rest, true => stripBlockAux rest true
  | '/' :: '*' :: rest, false =>
    if containsClose rest then stripBlockAux rest true else '/' :: '*' :: rest
  | c :: rest, false => c :: stripBlockAux rest false

/-- `replace(/\/\*[\s\S]*?\*\//g, "")`. -/
def stripBlock (l : List Char) : List Char := stripBlockAux l false

/-- Line-comment removal; the flag records being inside a `// ...` comment
(dropping until a line terminator, which itself is kept: `.` does not match
it). -/
def stripLineAux : List Char → Bool → List Char
  | [], _ => []
  | c :: rest, true =>
    if isLineTerm c then c :: stripLineAux rest false else stripLineAux rest true
  | '/' :: '/' :: rest, false => stripLineAux rest true
  | c :: rest, false => c :: stripLineAux rest false

/-- `replace(/\/\/.*/g, "")`. -/
def stripLine (l : List Char) : List Char := stripLineAux l false

/-- Both substitutions, in source order: block comments first, then line
comments. -/
def stripComments (l : List Char) : List Char := stripLine (stripBlock l)

/-! ### The banned-construct patterns (part_000 lines 111–113)

`/\bfor\s*\(/`, `/\bwhile\s*\(/`, `/\.forEach\s*\(/`.  Each is a literal
word (with a leading word boundary for the keywords), optional whitespace,
and `(`. -/

/-- Is the head of `l` the character `(`? -/
def headIsLParen : List Char → Bool
  | '(' :: _ => true
  | _ => false

/-- `\b` immediately before a word character: holds at the start of the text
or after a non-word character. -/
def boundaryOk : Option Char → Bool
  | none => true
  | some c => !isWordChar c

/-- Does `\b<kw>\s*\(` match at this position (`prev` is the preceding
character, if any)?  `kw` must start with a word character, which every use
here does. -/
def wordCallAt (kw : List Char) (prev : Option Char) (l : List Char) : Bool :=
  boundaryOk prev &&
    (match dropLit? kw l with
     | some rest => headIsLParen (rest.dropWhile isJsSpace)
     | none => false)

/-- Scan for `\b<kw>\s*\(` anywhere, tracking the previous character for the
word boundary. -/
def containsWordCallGo (kw : List Char) : Option Char → List Char → Bool
  | _, [] => false
  | prev, c :: rest =>
    wordCallAt kw prev (c :: rest) || containsWordCallGo kw (some c) rest

/-- `/\b<kw>\s*\(/.test l`. -/
def containsWordCall (kw l : List Char) : Bool := containsWordCallGo kw none l

/-- Does `\.forEach\s*\(` match at this position?  (No word boundary in this
pattern.) -/
def forEachAt (l : List Char) : Bool :=
  match dropLit? ('.' :: "forEach".data) l with
  | some rest => headIsLParen (rest.dropWhile isJsSpace)
  | none => false

/-- `/\.forEach\s*\(/.test l`. -/
def containsForEachCall : List Char → Bool
  | [] => false
  | c :: rest => forEachAt (c :: rest) || containsForEachCall rest

/-- Keyword-ban check (part_000 lines 105–114): strip comments, then fail
with `BannedConstruct` if any of the three patterns remains. -/
def bannedCheck (fileContent : String) : Option Err :=
  let codeWithoutComments := stripComments fileContent.data
  if containsWordCall "for".data codeWithoutComments ||
      containsWordCall "while".data codeWithoutComments ||
      containsForEachCall codeWithoutComments then
    some .BannedConstruct
  else none

/-! ### Self-recursion heuristic (part_000 lines 116–152)

Two `matchAll` passes over the raw file content collect `(name, body)`
definitions into a JavaScript `Map` (so a later definition with the same
name overwrites an earlier one), and the check fails when some retained
body matches `/\b<name>\s*\(/`.

Regex 1 (function declarations, line 123):
`/function\s+(\w+)\s*\([^)]*\)\s*{([^}]*)}/g`.
Regex 2 (arrow assignments, line 134):
`/(?:const|let|var)\s+(\w+)\s*=\s*\([^)]*\)\s*=>\s*([^;]+)/g`.

Both regexes are deterministic at a fixed start position: every repetition
is over a character class disjoint from the following literal — except the
final `\s*([^;]+)` of regex 2, where greedy backtracking gives `\s*` all the
whitespace unless `[^;]+` would then be empty, in which case `\s*` yields
exactly one character back. -/

/-- `[^stop]*` followed by the literal `stop`: returns the consumed content
and the remainder after `stop`, or `none` when `stop` does not occur. -/
def upToChar (stop : Char) : List Char → Option (List Char × List Char)
  | [] => none
  | c :: rest =>
    if c = stop then some ([], rest)
    else
      match upToChar stop rest with
      | some (content, r) => some (c :: content, r)
      | none => none

/-- Attempt regex 1 anchored at the start of `l`; on success return the
captured name and body and the remainder after the match (the continuation
point of `matchAll`). -/
def tryFunctionAt (l : List Char) : Option (String × String × List Char) :=
  match dropLit? "function".data l with
  | none => none
  | some r1 =>
    if (r1.takeWhile isJsSpace).isEmpty then none
    else
      let r2 := r1.dropWhile isJsSpace
      let nm := r2.takeWhile isWordChar
      if nm.isEmpty then none
      else
        match (r2.dropWhile isWordChar).dropWhile isJsSpace with
        | '(' :: r3 =>
          match upToChar ')' r3 with
          | none => none
          | some (_, r4) =>
            match r4.dropWhile isJsSpace with
            | '{' :: r5 =>
              match upToChar '}' r5 with
              | none => none
              | some (body, r6) => some (nm.asString, body.asString, r6)
            | _ => none
        | _ => none

/-- The `(?:const|let|var)` alternation, tried in source order (the three
literals start with distinct characters, so at most one applies). -/
def dropKeyword (l : List Char) : Option (List Char) :=
  match dropLit? "const".data l with
  | some r => some r
  | none =>
    match dropLit? "let".data l with
    | some r => some r
    | none => dropLit? "var".data l

/-- Attempt regex 2 anchored at the start of `l`.  The final `\s*([^;]+)`:
greedy `\s*` eats the whitespace after `=>`; if nothing non-`;` follows it,
backtracking hands one whitespace character back to `[^;]+` (so the captured
body is that single whitespace character), and with no whitespace at all the
whole match fails. -/
def tryArrowAt (l : List Char) : Option (String × String × List Char) :=
  match dropKeyword l with
  | none => none
  | some r1 =>
    if (r1.takeWhile isJsSpace).isEmpty then none
    else
      let r2 := r1.dropWhile isJsSpace
      let nm := r2.takeWhile isWordChar
      if nm.isEmpty then none
      else
        match (r2.dropWhile isWordChar).dropWhile isJsSpace with
        | '=' :: r3 =>
          match r3.dropWhile isJsSpace with
          | '(' :: r4 =>
            match upToChar ')' r4 with
            | none => none
            | some (_, r5) =>
              match r5.dropWhile isJsSpace with
              | '=' :: '>' :: r6 =>
                let sp := r6.takeWhile isJsSpace
                let r7 := r6.dropWhile isJsSpace
                match r7 with
                | c :: _ =>
                  if c = ';' then
                    if sp.isEmpty then none
                    else some (nm.asString, String.mk [sp.getLastD ' '], r7)
                  else
                    some (nm.asString, String.mk (r7.takeWhile (· ≠ ';')),
                      r7.dropWhile (· ≠ ';'))
                | [] =>
                  if sp.isEmpty then none
                  else some (nm.asString, String.mk [sp.getLastD ' '], [])
              | _ => none
          | _ => none
        | _ => none

/-- `matchAll` scan for regex 1: try the match at each position, continuing
after a successful match.  The fuel is the scanned list's length; every step
consumes at least one character, so with initial fuel `l.length` the fuel
cannot run out before the list does. -/
def scanFunctionsGo : Nat → List Char → List (String × String)
  | 0, _ => []
  | fuel + 1, l =>
    match l with
    | [] => []
    | c :: rest =>
      match tryFunctionAt (c :: rest) with
      | some (nm, body, rest') => (nm, body) :: scanFunctionsGo fuel rest'
      | none => scanFunctionsGo fuel rest

/-- All regex-1 matches of `l`, in order (part_000 lines 122–130). -/
def scanFunctions (l : List Char) : List (String × String) :=
  scanFunctionsGo l.length l

/-- `matchAll` scan for regex 2, as for `scanFunctionsGo`. -/
def scanArrowsGo : Nat → List Char → List (String × String)
  | 0, _ => []
  | fuel + 1, l =>
    match l with
    | [] => []
    | c :: rest =>
      match tryArrowAt (c :: rest) with
      | some (nm, body, rest') => (nm, body) :: scanArrowsGo fuel rest'
      | none => scanArrowsGo fuel rest

/-- All regex-2 matches of `l`, in order (part_000 lines 133–141). -/
def scanArrows (l : List Char) : List (String × String) :=
  scanArrowsGo l.length l

/-- The extracted definitions, in the order the source pushes them into the
`Map`: function declarations first, then arrow assignments. -/
def extractDefs (l : List Char) : List (String × String) :=
  scanFunctions l ++ scanArrows l

/-- `Map.prototype.set`: overwrite in place when the key exists (keeping
first-insertion order), else append. -/
def setEntry (m : List (String × String)) (k v : String) :
    List (String × String) :=
  if m.any (fun p => p.1 = k) then
    m.map (fun p => if p.1 = k then (k, v) else p)
  else m ++ [(k, v)]

/-- The `functionBodies` map after all `set` calls. -/
def buildMap (l : List (String × String)) : List (String × String) :=
  l.foldl (fun m p => setEntry m p.1 p.2) []

/-- Self-recursion check (part_000 lines 116–152): fail with `SelfRecursion`
when some body in the final map matches `/\b<name>\s*\(/` (lines 144–151).
The check runs on the raw file content, not the comment-stripped text. -/
def recursionCheck (fileContent : String) : Option Err :=
  if (buildMap (extractDefs fileContent.data)).any
      (fun p => containsWordCall p.1.data p.2.data) then
    some .SelfRecursion
  else none

/-! ### The interactive dispatcher's run-all mode
(run-interactive.js lines 55–62 and 146–182) -/

/-- `availableDirs`: the names among the root's children that are
directories, sorted (each input pairs a name with its `isDirectory()`
result). -/
def availableDirs (entries : List (String × Bool)) : List String :=
  List.insertionSort (· ≤ ·) ((entries.filter (fun e => e.2)).map (fun e => e.1))

/-- Outcome of the dispatcher process: normal completion, or
`process.exit(code)` after some entry's process exited non-zero. -/
inductive RunAllResult where
  | success
  | aborted (code : Int)
deriving DecidableEq

/-- `runAll(index)` (run-interactive.js lines 146–182), with each entry's
process modelled by its exit code: returns the indices of the entries whose
process was started, in order, and the dispatcher outcome.  An entry's
process is spawned only in the `exit` handler of the previous one, after an
exit code of `0`; a non-zero code calls `process.exit(code)` instead. -/
def runAllGo : List Int → Nat → List Nat × RunAllResult
  | [], _ => ([], .success)
  | code :: rest, index =>
    if code = 0 then
      let p := runAllGo rest (index + 1)
      (index :: p.1, p.2)
    else ([index], .aborted code)

/-- The run-all mode started at index 0. -/
def runAllTrace (codes : List Int) : List Nat × RunAllResult :=
  runAllGo codes 0

/-- `n` concatenated copies of `l`. -/
def repeatL (l : List Char) : Nat → List Char
  | 0 => []
  | n + 1 => l ++ repeatL l n

/-! ### Helper lemmas -/

theorem dropLit?_append (p r : List Char) : dropLit? p (p ++ r) = some r := by
  induction p with
  | nil => rfl
  | cons c cs ih => simp [dropLit?, ih]

theorem countGo_skip (tgt : List Char) :
    ∀ pre rest, countGo tgt (pre ++ rest) pre.length = countGo tgt rest 0 := by
  intro pre
  induction pre with
  | nil => intro rest; rfl
  | cons c cs ih => intro rest; simpa [countGo] using ih rest

theorem countGo_cons_self (t : Char) (ts rest : List Char) :
    countGo (t :: ts) (t :: (ts ++ rest)) 0 = 1 + countGo (t :: ts) rest 0 := by
  have hm : matchesAt (t :: ts) (t :: (ts ++ rest)) = true := by
    simp [matchesAt, dropLit?, dropLit?_append]
  simp only [countGo, hm, if_pos]
  have hl : (t :: ts).length - 1 = ts.length := by simp
  rw [hl, countGo_skip]

theorem countGo_repeatL (t : Char) (ts : List Char) :
    ∀ n, countGo (t :: ts) (repeatL (t :: ts) n) 0 = n := by
  intro n
  induction n with
  | zero => rfl
  | succ n ih =>
    have : repeatL (t :: ts) (n + 1) = t :: (ts ++ repeatL (t :: ts) n) := rfl
    rw [this, countGo_cons_self, ih]
    omega

theorem runAllGo_all_zero :
    ∀ (codes : List Int), (∀ c ∈ codes, c = 0) →
      ∀ i, runAllGo codes i = (List.range' i codes.length, RunAllResult.success) := by
  intro codes
  induction codes with
  | nil => intro _ i; simp [runAllGo]
  | cons c rest ih =>
    intro h i
    have hc : c = 0 := h c (by simp)
    have hr := ih (fun x hx => h x (by simp [hx])) (i + 1)
    simp [runAllGo, hc, hr, List.range'_succ]

theorem runAllGo_first_nonzero :
    ∀ (codes : List Int) (j : Nat) (c : Int),
      codes[j]? = some c → c ≠ 0 → (∀ k, k < j → codes[k]? = some 0) →
      ∀ i, runAllGo codes i = (List.range' i (j + 1), RunAllResult.aborted c) := by
  intro codes
  induction codes with
  | nil => intro j c hj; simp at hj
  | cons c0 rest ih =>
    intro j c hj hc hk i
    cases j with
    | zero =>
      simp only [List.getElem?_cons_zero, Option.some.injEq] at hj
      subst hj
      simp [runAllGo, hc, List.range'_succ]
    | succ j' =>
      have h0 : c0 = 0 := by simpa using hk 0 (Nat.succ_pos j')
      have hj' : rest[j']? = some c := by simpa using hj
      have hk' : ∀ k, k < j' → rest[k]? = some 0 := by
        intro k hkk
        simpa using hk (k + 1) (Nat.succ_lt_succ hkk)
      simp [runAllGo, h0, ih j' c hj' hc hk' (i + 1), List.range'_succ]

theorem runAllGo_trace_shape :
    ∀ (codes : List Int) (i : Nat),
      ∃ t, t ≤ codes.length ∧ (runAllGo codes i).1 = List.range' i t ∧
        ∀ k, k + 1 < t → codes[k]? = some 0 := by
  intro codes
  induction codes with
  | nil =>
    intro i
    exact ⟨0, by simp [runAllGo]⟩
  | cons c rest ih =>
    intro i
    by_cases hc : c = 0
    · obtain ⟨t, ht, htr, hz⟩ := ih (i + 1)
      refine ⟨t + 1, by simpa using ht, ?_, ?_⟩
      · simp [runAllGo, hc, htr, List.range'_succ]
      · intro k hkt
        cases k with
        | zero => simp [hc]
        | succ k' => simpa using hz k' (by omega)
    · refine ⟨1, by simp, ?_, ?_⟩
      · simp [runAllGo, hc, List.range'_succ]
      · intro k hkt
        omega

/-! ### Claim theorems -/

/-- Claim C1: for every captured stdout text, the output verification fails
with `CountMismatch` iff the number of non-overlapping occurrences of the
literal `"Hello, World!"` is not 1,000,000; a text of exactly 1,000,000
copies of the target passes, and texts of 999,999 or 1,000,001 copies
fail. -/
theorem claim_C1_output_verifier :
    (∀ s : String,
      outputCheck s = some Err.CountMismatch ↔ countOcc s TARGET ≠ 1000000) ∧
    outputCheck (String.mk (repeatL TARGET.data 1000000)) = none ∧
    outputCheck (String.mk (repeatL TARGET.data 999999)) =
      some Err.CountMismatch ∧
    outputCheck (String.mk (repeatL TARGET.data 1000001)) =
      some Err.CountMismatch := by
  have hdata : TARGET.data = 'H' :: "ello, World!".data := rfl
  have hrep : ∀ n, countOcc (String.mk (repeatL TARGET.data n)) TARGET = n := by
    intro n
    show countGo TARGET.data (repeatL TARGET.data n) 0 = n
    rw [hdata]
    exact countGo_repeatL 'H' "ello, World!".data n
  refine ⟨?_, ?_, ?_, ?_⟩
  · intro s
    unfold outputCheck EXPECTED_COUNT
    split <;> simp_all
  · simp [outputCheck, hrep, EXPECTED_COUNT]
  · simp [outputCheck, hrep, EXPECTED_COUNT]
  · simp [outputCheck, hrep, EXPECTED_COUNT]

/-- Claim C2: the keyword-ban check strips block and line comments and then
fails with `BannedConstruct` iff one of the three patterns
(`\bfor\s*\(`, `\bwhile\s*\(`, `\.forEach\s*\(`) survives; `for (` outside a
comment fails, the same text inside a `//` or `/* */` comment passes. -/
theorem claim_C2_keyword_ban :
    (∀ content : String,
      bannedCheck content = some Err.BannedConstruct ↔
        (containsWordCall "for".data (stripComments content.data) = true ∨
         containsWordCall "while".data (stripComments content.data) = true ∨
         containsForEachCall (stripComments content.data) = true)) ∧
    bannedCheck "for (x)" = some Err.BannedConstruct ∧
    bannedCheck "// for (x)" = none ∧
    bannedCheck "/* for (x) */" = none := by
  refine ⟨?_, by decide, by decide, by decide⟩
  intro content
  simp only [bannedCheck]
  split
  next h => simp_all; tauto
  next h => simp_all

/-- Claim C3, counterexample: the claim says the check fails iff SOME
extracted definition's body calls its own name, but the source stores the
definitions in a `Map`, so a later definition named `f` overwrites an
earlier self-recursive one: on this input an extracted definition is
self-calling, yet the check passes. -/
theorem claim_C3_counterexample :
    recursionCheck "function f(){f()}function f(){}" = none ∧
    (extractDefs "function f(){f()}function f(){}".data).any
      (fun p => containsWordCall p.1.data p.2.data) = true := by
  exact ⟨by decide, by decide⟩

/-- Claim C3 (amended): the check fails with `SelfRecursion` iff, after
later same-name definitions overwrite earlier ones (`Map` semantics), some
retained definition's body matches `\b<name>\s*\(`; a self-calling function
declaration fails, the same shape without the self-reference passes. -/
theorem claim_C3_self_recursion :
    (∀ content : String,
      recursionCheck content = some Err.SelfRecursion ↔
        (buildMap (extractDefs content.data)).any
          (fun p => containsWordCall p.1.data p.2.data) = true) ∧
    recursionCheck "function f(){ f(1) }" = some Err.SelfRecursion ∧
    recursionCheck "function f(){ g(1) }" = none := by
  refine ⟨?_, by decide, by decide⟩
  intro content
  simp only [recursionCheck]
  split
  next h => simp_all
  next h => simp_all

/-- Claim C4: `findMainFile` returns the single file's name when it is in
the allow-list, and fails with `StructuralError` on zero files, on more than
one file, or on a name outside the allow-list. -/
theorem claim_C4_findMainFile :
    ∀ files : List String,
      (∀ f, findMainFile files = Except.ok f ↔
        (files = [f] ∧ f ∈ ALLOWED_FILENAMES)) ∧
      (findMainFile files = Except.error Err.StructuralError ↔
        (files = [] ∨ 2 ≤ files.length ∨
          ∃ g, files = [g] ∧ g ∉ ALLOWED_FILENAMES)) := by
  intro files
  match files with
  | [] => simp [findMainFile]
  | [f] =>
    by_cases hf : f ∈ ALLOWED_FILENAMES
    · constructor
      · intro f'
        simp only [findMainFile]
        simp [hf]
        intro h
        rw [h] at hf
        exact hf
      · simp [findMainFile, hf]
    · constructor
      · intro f'
        simp only [findMainFile]
        simp [hf]
        intro h
        rw [← h]
        exact hf
      · simp [findMainFile, hf]
  | a :: b :: t =>
    constructor
    · intro f'
      simp [findMainFile]
    · simp only [findMainFile]
      simp

/-- Claim C5: the size check fails with `SizeExceeded` iff the byte length
exceeds 1000; exactly 1000 passes, 1001 fails. -/
theorem claim_C5_size_check :
    (∀ n : Nat, sizeCheck n = some Err.SizeExceeded ↔ n > 1000) ∧
    sizeCheck 1000 = none ∧
    sizeCheck 1001 = some Err.SizeExceeded := by
  refine ⟨?_, by decide, by decide⟩
  intro n
  unfold sizeCheck MAX_FILE_SIZE
  split
  next h => simp; omega
  next h => simp; omega

/-- Claim C6: on a non-zero exit code the runner rejects with
`ExecutionFailed` carrying the accumulated stderr text; on exit code zero it
resolves with the accumulated stdout text. -/
theorem claim_C6_close_handler :
    ∀ (c : Int) (stdout stderr : String),
      (c ≠ 0 →
        onClose (some c) stdout stderr =
          Except.error (Err.ExecutionFailed stderr)) ∧
      onClose (some 0) stdout stderr = Except.ok stdout := by
  intro c stdout stderr
  constructor
  · intro hc
    simp [onClose, hc]
  · simp [onClose]

/-- Witness for claim C6 at concrete exit codes 1 and 0. -/
theorem claim_C6_witness :
    onClose (some 1) "out" "err" = Except.error (Err.ExecutionFailed "err") ∧
    onClose (some 0) "out" "err" = Except.ok "out" :=
  ⟨(claim_C6_close_handler 1 "out" "err").1 (by decide),
   (claim_C6_close_handler 0 "out" "err").2⟩

/-- Claim C7, counterexample: the two file-name-to-command mappings are NOT
the same function — they disagree on `main.ts` (the pipeline passes `--esm`,
the dispatcher does not). -/
theorem claim_C7_counterexample :
    getRunCommand "main.ts" ≠ getRunCommandInteractive "main.ts" := by
  decide

/-- Claim C7 (amended): the two mappings agree on every file name other than
`main.ts`; on `main.ts` the validation pipeline invokes
`npx ts-node --esm` while the interactive dispatcher invokes `npx ts-node`
without the ECMAScript-module flag. -/
theorem claim_C7_command_mappings :
    (∀ f : String, f ≠ "main.ts" →
      getRunCommand f = getRunCommandInteractive f) ∧
    getRunCommand "main.ts" = ["npx", "ts-node", "--esm"] ∧
    getRunCommandInteractive "main.ts" = ["npx", "ts-node"] := by
  refine ⟨?_, by decide, by decide⟩
  intro f hf
  simp [getRunCommand, getRunCommandInteractive, hf]

/-- Witness for claim C7 (amended) at `main.coffee`. -/
theorem claim_C7_witness :
    getRunCommand "main.coffee" = getRunCommandInteractive "main.coffee" :=
  claim_C7_command_mappings.1 "main.coffee" (by decide)

/-- Claim C8: the dispatcher's run-all list is sorted; an entry is started
only after every earlier entry's process exited with code zero; the first
non-zero exit aborts immediately with that exit code; all-zero runs
terminate successfully after the last entry. -/
theorem claim_C8_run_all :
    (∀ entries : List (String × Bool),
      List.Sorted (· ≤ ·) (availableDirs entries)) ∧
    (∀ (codes : List Int) (j : Nat), (j + 1) ∈ (runAllTrace codes).1 →
      j ∈ (runAllTrace codes).1 ∧ codes[j]? = some 0) ∧
    (∀ codes : List Int, (∀ c ∈ codes, c = 0) →
      runAllTrace codes = (List.range codes.length, RunAllResult.success)) ∧
    (∀ (codes : List Int) (j : Nat) (c : Int),
      codes[j]? = some c → c ≠ 0 → (∀ k, k < j → codes[k]? = some 0) →
      runAllTrace codes = (List.range (j + 1), RunAllResult.aborted c)) := by
  refine ⟨?_, ?_, ?_, ?_⟩
  · intro entries
    exact List.sorted_insertionSort _ _
  · intro codes j hj
    obtain ⟨t, ht, htr, hz⟩ := runAllGo_trace_shape codes 0
    rw [runAllTrace, htr] at hj ⊢
    rw [← List.range_eq_range'] at hj ⊢
    rw [List.mem_range] at hj
    exact ⟨List.mem_range.mpr (by omega), hz j hj⟩
  · intro codes h
    rw [runAllTrace, runAllGo_all_zero codes h 0, List.range_eq_range']
  · intro codes j c hj hc hk
    rw [runAllTrace, runAllGo_first_nonzero codes j c hj hc hk 0,
      List.range_eq_range']

/-- Witness for claim C8 at concrete exit-code lists `[0, 0]` and
`[0, 3, 0]`. -/
theorem claim_C8_witness :
    runAllTrace [0, 0] = (List.range 2, RunAllResult.success) ∧
    runAllTrace [0, 3, 0] = (List.range 2, RunAllResult.aborted 3) ∧
    (0 ∈ (runAllTrace [0, 3, 0]).1 ∧ ([0, 3, 0] : List Int)[0]? = some 0) :=
  ⟨claim_C8_run_all.2.2.1 [0, 0] (by decide),
   claim_C8_run_all.2.2.2 [0, 3, 0] 1 3 (by decide) (by decide)
     (by
       intro k hk
       have hk0 : k = 0 := by omega
       rw [hk0]
       decide),
   claim_C8_run_all.2.1 [0, 3, 0] 0 (by decide)⟩

/-- Claim C9: the self-recursion check runs on the raw file content, not on
the comment-stripped text: a function whose only self-call sits inside a
block comment still fails with `SelfRecursion`, although the same content
after the keyword-ban check's comment stripping would pass. -/
theorem claim_C9_raw_content :
    recursionCheck "function f(){ /* f() */ }" = some Err.SelfRecursion ∧
    recursionCheck
      (String.mk (stripComments "function f(){ /* f() */ }".data)) = none :=
  ⟨by decide, by decide⟩

/-- Claim C10: an arrow function with an unparenthesized parameter is not
extracted (the arrow regex demands a parenthesized parameter list), so the
self-recursive `const f = x => f(x - 1);` passes the check, while the
parenthesized variant is extracted and fails. -/
theorem claim_C10_unparenthesized_arrow :
    extractDefs "const f = x => f(x - 1);".data = [] ∧
    recursionCheck "const f = x => f(x - 1);" = none ∧
    recursionCheck "const f = (x) => f(x - 1);" = some Err.SelfRecursion :=
  ⟨by decide, by decide, by decide⟩
